import Mathlib

/-!
Shallow embedding of the `rust_kgs_tracing` repository: the telemetry
bootstrap builder (`src/components/telemetry_initializer.rs`), the tonic
egress request builder (`src/components/tonic/request_builder.rs`), the
tonic ingress middlewares (`src/middlewares/tonic/tracing_record.rs`,
`src/middlewares/tonic/root_span_builder.rs`) and the actix-web ingress
middleware (`src/middlewares/actix_web/tracing_record.rs`).

Pure string manipulation is embedded over `List Char`; the flat key/value
carriers (HTTP headers, tonic metadata) are association lists of strings;
the process-global pieces of state (the installed subscriber, the global
text-map propagator) are threaded explicitly; fallible operations return
`Except`/`Option`.
-/

namespace KgsTracing

/-! ### Hexadecimal encoding

The OpenTelemetry trace / span identifiers travel on the wire as fixed
width lowercase hexadecimal strings.  We model the identifiers as `Nat`
and encode / decode them explicitly. -/

/-- Lowercase hexadecimal digit for a value `0..15` (other inputs give `'0'`). -/
def hexDigitChar : Nat → Char
  | 0 => '0' | 1 => '1' | 2 => '2' | 3 => '3'
  | 4 => '4' | 5 => '5' | 6 => '6' | 7 => '7'
  | 8 => '8' | 9 => '9' | 10 => 'a' | 11 => 'b'
  | 12 => 'c' | 13 => 'd' | 14 => 'e' | 15 => 'f'
  | _ => '0'

/-- Numeric value of a hexadecimal digit (junk inputs give `0`). -/
def hexVal (c : Char) : Nat :=
  if '0' ≤ c ∧ c ≤ '9' then c.toNat - '0'.toNat
  else if 'a' ≤ c ∧ c ≤ 'f' then c.toNat - 'a'.toNat + 10
  else 0

/-- Is `c` a lowercase hexadecimal digit?  (The W3C trace-context format
uses lowercase hex only.) -/
def isHexDigit (c : Char) : Bool :=
  ('0' ≤ c && c ≤ '9') || ('a' ≤ c && c ≤ 'f')

/-- Big-endian, zero-padded hexadecimal encoding of `n` to exactly `w` digits. -/
def encodeHex : Nat → Nat → List Char
  | 0, _ => []
  | w + 1, n => hexDigitChar (n / 16 ^ w) :: encodeHex w (n % 16 ^ w)

/-- Decode a list of hexadecimal digits (big-endian). -/
def decodeHex (l : List Char) : Nat :=
  l.foldl (fun a c => a * 16 + hexVal c) 0

/-! ### Splitting, as done by Rust's `str::split` / `str::split_once` -/

/-- `Rust`'s `s.split(sep)`: the (possibly empty) chunks of `s` between
occurrences of `sep`.  `split` of the empty string is `[[]]`. -/
def splitOnChar (sep : Char) : List Char → List (List Char)
  | [] => [[]]
  | c :: cs =>
    if c = sep then [] :: splitOnChar sep cs
    else
      match splitOnChar sep cs with
      | [] => [[c]]
      | p :: ps => (c :: p) :: ps

/-- Rust's `s.split_once(sep)`: the parts before and after the first
occurrence of `sep`, or `none` if `sep` does not occur. -/
def rustSplitOnce (sep : Char) : List Char → Option (List Char × List Char)
  | [] => none
  | c :: cs =>
    if c = sep then some ([], cs)
    else (rustSplitOnce sep cs).map (fun p => (c :: p.1, p.2))

/-! ### Carriers

A carrier (`tonic::metadata::MetadataMap`, axum's `HeaderMap`) is a flat
string-to-string map, embedded as an association list; lookup returns the
first binding of a key. -/

/-- A flat key/value carrier (HTTP headers or RPC metadata). -/
abbrev Carrier := List (String × String)

/-- First value bound to `k` in the carrier, if any. -/
def lookupCarrier (c : Carrier) (k : String) : Option String :=
  match c.find? (fun p => p.1 == k) with
  | some p => some p.2
  | none => none

/-- Insert `(k, v)`, replacing any previous binding of `k`
(`MetadataMap::insert` / `HeaderMap::insert` semantics). -/
def insertCarrier (c : Carrier) (k v : String) : Carrier :=
  (k, v) :: c.filter (fun p => p.1 ≠ k)

/-! ### Metadata key / value validity

`MetadataMap::set` (in `src/components/tonic/request_builder.rs`) inserts
a pair only when `tonic::metadata::MetadataKey::from_bytes` and
`tonic::metadata::MetadataValue::try_from` both accept it.  Those
validators live in the `tonic`/`http` crates, outside this repository. -/

/-- Modelled from the spec: a carrier key is representable when it is a
nonempty HTTP/2-style lowercase token (`tonic::metadata::MetadataKey`
validation; uppercase and exotic characters are rejected). -/
def isValidMetadataKey (k : String) : Bool :=
  !k.toList.isEmpty &&
    k.toList.all (fun c =>
      ('a' ≤ c && c ≤ 'z') || ('0' ≤ c && c ≤ '9') || c = '-' || c = '_' || c = '.')

/-- A character an ASCII metadata / header value may contain: visible
ASCII (32–126) or horizontal tab. -/
def isAsciiValueChar (c : Char) : Bool :=
  (32 ≤ c.toNat && c.toNat ≤ 126) || c = '\t'

/-- Modelled from the spec: "Only ASCII-safe values are representable" — a
carrier value is representable when every character is ASCII-safe
(`tonic::metadata::MetadataValue::try_from` validation). -/
def isValidMetadataValue (v : String) : Bool :=
  v.toList.all isAsciiValueChar

/-- `impl Injector for MetadataMap`: `set` inserts the pair when the key
and the value are both representable, and silently does nothing otherwise
(`src/components/tonic/request_builder.rs`). -/
def metadataMapSet (m : Carrier) (key value : String) : Carrier :=
  if isValidMetadataKey key then
    if isValidMetadataValue value then insertCarrier m key value
    else m
  else m

/-- `impl Extractor for HeaderExtractor`: `get` returns the header value
when it converts to visible ASCII, and `none` otherwise
(`src/middlewares/tonic/tracing_record.rs`). -/
def headerExtractorGet (headers : Carrier) (k : String) : Option String :=
  match lookupCarrier headers k with
  | some v => if v.toList.all isAsciiValueChar then some v else none
  | none => none

/-! ### Trace context and the propagation codec

The repository delegates context serialization to the globally registered
text-map propagator: `init_tracer` registers
`opentelemetry_sdk::propagation::TraceContextPropagator` (the W3C
trace-context codec), and until then the OpenTelemetry global default is
a no-op propagator.  Neither propagator's code lives in this repository. -/

/-- An OpenTelemetry span context: `(trace_id, span_id, trace_flags)`.
`trace_id` is a 128-bit and `span_id` a 64-bit identifier, kept as `Nat`
with explicit bounds where they matter. -/
structure SpanContext where
  traceId : Nat
  spanId : Nat
  traceFlags : Nat
  deriving Repr, DecidableEq

/-- A span context is valid when neither identifier is all-zero. -/
def SpanContext.isValid (sc : SpanContext) : Bool :=
  sc.traceId != 0 && sc.spanId != 0

/-- The key the W3C trace-context codec writes. -/
def traceparentKey : String := "traceparent"

/-- Modelled from the spec: the W3C-trace-context wire value written by the
registered codec for a span context —
`"00-" ++ trace_id (32 hex) ++ "-" ++ span_id (16 hex) ++ "-" ++ flags (2 hex)`. -/
def traceparentValue (sc : SpanContext) : String :=
  ⟨encodeHex 2 0 ++ '-' :: (encodeHex 32 sc.traceId ++
    '-' :: (encodeHex 16 sc.spanId ++ '-' :: encodeHex 2 (sc.traceFlags % 256)))⟩

/-- Modelled from the spec: parsing of a `traceparent` value by the W3C
trace-context codec.  The value must split on `'-'` into exactly four
fields of hex digits with lengths `2/32/16/2`, the version must not be
`ff`, and the trace and span ids must be nonzero; anything else parses to
`none` ("no parent"), never an error. -/
def parseTraceparentParts : List (List Char) → Option SpanContext
  | [ver, t, s, f] =>
    if ver.length == 2 && ver.all isHexDigit && decodeHex ver != 255 &&
       t.length == 32 && t.all isHexDigit &&
       s.length == 16 && s.all isHexDigit &&
       f.length == 2 && f.all isHexDigit &&
       decodeHex t != 0 && decodeHex s != 0
    then some ⟨decodeHex t, decodeHex s, decodeHex f⟩
    else none
  | _ => none

/-- Modelled from the spec: parse a `traceparent` value by splitting it on
`'-'` and validating the four fields. -/
def parseTraceparent (value : List Char) : Option SpanContext :=
  parseTraceparentParts (splitOnChar '-' value)

/-- The globally registered text-map propagator: the OpenTelemetry no-op
default, or the W3C `TraceContextPropagator` registered by `init_tracer`. -/
inductive Propagator where
  | noop
  | traceContext
  deriving Repr, DecidableEq

/-- Modelled from the spec: `inject(context, carrier)` writes the context's
fields into the carrier through the carrier's `Injector` (here
`metadataMapSet`).  The W3C codec writes one `traceparent` entry when the
context holds a valid span context; the no-op propagator writes nothing. -/
def Propagator.injectContext (p : Propagator) (cx : Option SpanContext)
    (carrier : Carrier) : Carrier :=
  match p with
  | .noop => carrier
  | .traceContext =>
    match cx with
    | some sc =>
      if sc.isValid then metadataMapSet carrier traceparentKey (traceparentValue sc)
      else carrier
    | none => carrier

/-- Modelled from the spec: `extract(carrier) -> context` reads the
carrier through the `Extractor` (here `headerExtractorGet`) and parses the
fields back; malformed or missing fields yield `none` ("no parent", a
fresh root), never an error.  The no-op propagator extracts nothing. -/
def Propagator.extract (p : Propagator) (headers : Carrier) : Option SpanContext :=
  match p with
  | .noop => none
  | .traceContext =>
    match headerExtractorGet headers traceparentKey with
    | some v => parseTraceparent v.toList
    | none => none

/-! ### Egress: `create_request_with_span`
(`src/components/tonic/request_builder.rs`) -/

/-- `create_request_with_span`: build a fresh tonic request (empty
metadata) and inject the current span's context into its metadata via the
global propagator.  Returns the request's metadata carrier. -/
def create_request_with_span (p : Propagator) (currentCx : Option SpanContext) :
    Carrier :=
  p.injectContext currentCx []

/-! ### Ingress: `accept_trace` and `record_trace_id`
(`src/middlewares/tonic/tracing_record.rs`) -/

/-- `accept_trace`: the parent context extracted from the request headers
via the global propagator, which the current span's parent is set to. -/
def accept_trace (p : Propagator) (headers : Carrier) : Option SpanContext :=
  p.extract headers

/-! ### Spans and the span context recorder -/

/-- A `tracing` span as the recorders see it: the OpenTelemetry context
attached to it (if any) and its typed fields, here an association list of
recorded string fields. -/
structure SpanData where
  context : Option SpanContext
  fields : List (String × String)
  deriving Repr, DecidableEq

/-- First value recorded for the field `k`, if any. -/
def lookupField (fs : List (String × String)) (k : String) : Option String :=
  match fs.find? (fun p => p.1 == k) with
  | some p => some p.2
  | none => none

/-- Modelled from the spec: `Span::record` keeps one value per field,
overwriting any previous value of that field. -/
def setField (fs : List (String × String)) (k v : String) :
    List (String × String) :=
  (k, v) :: fs.filter (fun p => p.1 ≠ k)

/-- `span.context().span().span_context().trace_id().to_string()`: the
trace id of the span's context, rendered as 32 lowercase hex digits; a
span without a remote/sampled context carries the invalid (all-zero) id. -/
def spanTraceIdString (sp : SpanData) : String :=
  match sp.context with
  | some sc => ⟨encodeHex 32 sc.traceId⟩
  | none => ⟨encodeHex 32 0⟩

/-- `record_trace_id` (`src/middlewares/tonic/tracing_record.rs`): record
the current span's trace id under the field `"trace_id"` on the current
span.  `current = none` models "no span is active", where `Span::record`
is a no-op. -/
def record_trace_id (current : Option SpanData) : Option SpanData :=
  match current with
  | some sp =>
    some { sp with fields := setField sp.fields "trace_id" (spanTraceIdString sp) }
  | none => none

/-- `TracingRecordMiddleware::call`
(`src/middlewares/actix_web/tracing_record.rs`): if the request extensions
hold a `RootSpan`, record its trace id under `"trace_id"` on that span;
otherwise record nothing. -/
def tracingRecordCall (rootSpan : Option SpanData) : Option SpanData :=
  match rootSpan with
  | some span =>
    some { span with fields := setField span.fields "trace_id" (spanTraceIdString span) }
  | none => none

/-! ### `extract_service_method`
(`src/middlewares/tonic/root_span_builder.rs`) -/

/-- `extract_service_method`: split the request path on `'/'`, keep the
nonempty components; the service is what follows the first `'.'` of the
first component (`split_once('.')`), defaulting to empty, and the method
is the second component, defaulting to empty. -/
def extract_service_method (path : List Char) : List Char × List Char :=
  let parts := (splitOnChar '/' path).filter (fun x => !x.isEmpty)
  let service := ((rustSplitOnce '.' ((parts.head?).getD [])).map Prod.snd).getD []
  let method := ((parts.drop 1).head?).getD []
  (service, method)

/-- The segment of `l` after the first `'.'`, empty when `l` has no `'.'`
(stated from the spec's words, for comparison with the service component
computed by `extract_service_method`). -/
def afterFirstDot (l : List Char) : List Char :=
  if '.' ∈ l then (l.dropWhile (fun c => c ≠ '.')).drop 1 else []

/-! ### The telemetry bootstrap builder
(`src/components/telemetry_initializer.rs`, `src/enums/log_level.rs`) -/

/-- `enums::LogLevel`. -/
inductive LogLevel where
  | debug
  | info
  | warn
  | error
  deriving Repr, DecidableEq

/-- `impl Display for LogLevel`. -/
def LogLevel.toDirective : LogLevel → String
  | .debug => "Debug"
  | .info => "Info"
  | .warn => "Warn"
  | .error => "Error"

/-- The `Builder` configuration record. -/
structure Builder where
  service_name : String
  log_level : LogLevel
  trace_export_url : Option String
  metrics_export_url : Option String
  loki_export_url : Option String
  deriving Repr, DecidableEq

/-- `Builder::new`: mandatory service name, `log_level` defaults to Info,
no export target enabled. -/
def Builder.new (service_name : String) : Builder :=
  { service_name := service_name
    log_level := .info
    trace_export_url := none
    metrics_export_url := none
    loki_export_url := none }

/-- `Builder::set_log_level`. -/
def Builder.set_log_level (b : Builder) (level : LogLevel) : Builder :=
  { b with log_level := level }

/-- `Builder::enable_tracing`. -/
def Builder.enable_tracing (b : Builder) (export_url : String) : Builder :=
  { b with trace_export_url := some export_url }

/-- `Builder::enable_metrics`. -/
def Builder.enable_metrics (b : Builder) (export_url : String) : Builder :=
  { b with metrics_export_url := some export_url }

/-- `Builder::enable_log`. -/
def Builder.enable_log (b : Builder) (export_url : String) : Builder :=
  { b with loki_export_url := some export_url }

/-- The aggregation selector passed to the metrics pipeline
(`DefaultAggregationSelector::new()` in the source). -/
inductive AggregationSelector where
  | defaultSelector
  deriving Repr, DecidableEq

/-- The temporality selector passed to the metrics pipeline
(`DefaultTemporalitySelector::new()` in the source). -/
inductive TemporalitySelector where
  | defaultSelector
  deriving Repr, DecidableEq

/-- The configuration of the periodic metrics exporter pipeline that
`init_metrics` builds: endpoint and gRPC export timeout from the
`ExportConfig`, push period and export timeout of the periodic reader,
and the two selectors. -/
structure MetricsPipeline where
  endpoint : String
  exporterGrpcTimeoutSecs : Nat
  resource : List (String × String)
  periodSecs : Nat
  timeoutSecs : Nat
  aggregation : AggregationSelector
  temporality : TemporalitySelector
  deriving Repr, DecidableEq

/-- `Builder::init_metrics`: the OTLP metrics pipeline exactly as the
source configures it — `ExportConfig` with a 3 s gRPC timeout, a resource
tagged `service_name`, `with_period(3 s)`, `with_timeout(10 s)`, and the
default aggregation and temporality selectors. -/
def Builder.init_metrics (b : Builder) (export_url : String) : MetricsPipeline :=
  { endpoint := export_url
    exporterGrpcTimeoutSecs := 3
    resource := [("service_name", b.service_name)]
    periodSecs := 3
    timeoutSecs := 10
    aggregation := .defaultSelector
    temporality := .defaultSelector }

/-- One layer of the composed `tracing_subscriber` stack. -/
inductive Layer where
  | envFilter (directive : String)
  | console
  | traceId
  | openTelemetry (endpoint : String)
  | loki (endpoint : String)
  deriving Repr, DecidableEq

/-- The process-global state the builder touches: whether a global
subscriber is already installed (`tracing::subscriber::set_global_default`
fails once one is), and the global text-map propagator. -/
structure GlobalState where
  subscriberInstalled : Bool
  propagator : Propagator
  deriving Repr, DecidableEq

/-- The environment outside the process that decides the fallible steps of
`build`: whether each exporter pipeline constructs successfully, and the
value of the log-filter environment variable when it is present. -/
structure ExternalEnv where
  tracerInitOk : Bool
  lokiInitOk : Bool
  metricsInitOk : Bool
  rustLog : Option String
  deriving Repr, DecidableEq

/-- The fatal startup errors of `build` (each is an `.expect` panic in the
source). -/
inductive BuildError where
  | tracerInitFailed
  | lokiInitFailed
  | metricsInitFailed
  | globalSinkAlreadyInstalled
  deriving Repr, DecidableEq

/-- What a successful `build` produces besides the new global state: the
composed subscriber stack and the metrics pipeline when one was built. -/
structure BuildOutput where
  sink : List Layer
  metricsProvider : Option MetricsPipeline
  deriving Repr, DecidableEq

/-- Modelled from the spec: `EnvFilter::try_from_default_env().unwrap_or(EnvFilter::new(level))` —
the environment-level override takes precedence over the configured
`log_level` when the environment variable is present. -/
def effectiveDirective (env : ExternalEnv) (b : Builder) : String :=
  match env.rustLog with
  | some e => e
  | none => b.log_level.toDirective

/-- `Builder::build`: initialize the optional trace, loki and metrics
pipelines (each `.expect` panic modelled as a fatal `BuildError`;
`init_tracer` registers the W3C propagator before its pipeline install),
resolve the effective level filter, compose
`filter → console → trace-id recorder → (trace?) → (loki?)`, and install
the stack as the process-wide default — which fails when one is already
installed. -/
def Builder.build (b : Builder) (env : ExternalEnv) (st : GlobalState) :
    Except BuildError (GlobalState × BuildOutput) :=
  -- init tracing: `init_tracer` first registers the global propagator,
  -- then installs the OTLP pipeline, which can fail.
  match
    (match b.trace_export_url with
     | some u =>
       let st := { st with propagator := Propagator.traceContext }
       if env.tracerInitOk then Except.ok (some (Layer.openTelemetry u), st)
       else Except.error BuildError.tracerInitFailed
     | none => Except.ok (none, st)) with
  | .error e => .error e
  | .ok (traceLayer?, st) =>
    -- init loki
    match
      (match b.loki_export_url with
       | some u =>
         if env.lokiInitOk then Except.ok (some (Layer.loki u))
         else Except.error BuildError.lokiInitFailed
       | none => Except.ok none) with
    | .error e => .error e
    | .ok lokiLayer? =>
      -- init metrics
      match
        (match b.metrics_export_url with
         | some u =>
           if env.metricsInitOk then Except.ok (some (b.init_metrics u))
           else Except.error BuildError.metricsInitFailed
         | none => Except.ok none) with
      | .error e => .error e
      | .ok metricsProvider? =>
        -- set log level, then compose and install the subscriber
        let sink := Layer.envFilter (effectiveDirective env b) :: Layer.console ::
          Layer.traceId :: (traceLayer?.toList ++ lokiLayer?.toList)
        if st.subscriberInstalled then .error .globalSinkAlreadyInstalled
        else .ok ({ st with subscriberInstalled := true },
          { sink := sink, metricsProvider := metricsProvider? })

/-! ## Lemmas about the hexadecimal codec -/

theorem hexVal_hexDigitChar {d : Nat} (h : d < 16) : hexVal (hexDigitChar d) = d := by
  interval_cases d <;> decide

theorem isHexDigit_hexDigitChar (n : Nat) : isHexDigit (hexDigitChar n) = true := by
  unfold hexDigitChar
  split <;> decide

theorem isAsciiValueChar_hexDigitChar (n : Nat) :
    isAsciiValueChar (hexDigitChar n) = true := by
  unfold hexDigitChar
  split <;> decide

theorem length_encodeHex (w n : Nat) : (encodeHex w n).length = w := by
  induction w generalizing n with
  | zero => rfl
  | succ w ih => simp [encodeHex, ih]

theorem all_isHexDigit_encodeHex (w n : Nat) :
    (encodeHex w n).all isHexDigit = true := by
  induction w generalizing n with
  | zero => rfl
  | succ w ih => simp [encodeHex, ih, isHexDigit_hexDigitChar]

theorem all_isAsciiValueChar_encodeHex (w n : Nat) :
    (encodeHex w n).all isAsciiValueChar = true := by
  induction w generalizing n with
  | zero => rfl
  | succ w ih => simp [encodeHex, ih, isAsciiValueChar_hexDigitChar]

theorem foldl_decode_encodeHex (w : Nat) :
    ∀ a n, n < 16 ^ w →
      (encodeHex w n).foldl (fun acc c => acc * 16 + hexVal c) a = a * 16 ^ w + n := by
  induction w with
  | zero => intro a n h; interval_cases n; simp [encodeHex]
  | succ w ih =>
    intro a n h
    have h16 : 0 < 16 ^ w := Nat.pos_pow_of_pos w (by omega)
    have hdiv : n / 16 ^ w < 16 := by
      rw [Nat.div_lt_iff_lt_mul h16]
      calc n < 16 ^ (w + 1) := h
        _ = 16 * 16 ^ w := by ring
    have hmod : n % 16 ^ w < 16 ^ w := Nat.mod_lt _ h16
    rw [encodeHex, List.foldl_cons, hexVal_hexDigitChar hdiv, ih _ _ hmod]
    have := Nat.div_add_mod n (16 ^ w)
    calc (a * 16 + n / 16 ^ w) * 16 ^ w + n % 16 ^ w
        = a * (16 ^ w * 16) + (16 ^ w * (n / 16 ^ w) + n % 16 ^ w) := by ring
      _ = a * 16 ^ (w + 1) + n := by rw [this]; ring_nf

theorem decodeHex_encodeHex {w n : Nat} (h : n < 16 ^ w) :
    decodeHex (encodeHex w n) = n := by
  have := foldl_decode_encodeHex w 0 n h
  simpa [decodeHex] using this

theorem ne_dash_of_isHexDigit {c : Char} (h : isHexDigit c = true) : c ≠ '-' := by
  intro hc
  subst hc
  simp [isHexDigit] at h

/-! ## Lemmas about splitting -/

theorem splitOnChar_no_sep {sep : Char} {l : List Char}
    (h : ∀ c ∈ l, c ≠ sep) : splitOnChar sep l = [l] := by
  induction l with
  | nil => rfl
  | cons c cs ih =>
    have hc : c ≠ sep := h c (List.mem_cons_self c cs)
    have hcs : ∀ x ∈ cs, x ≠ sep := fun x hx => h x (List.mem_cons_of_mem c hx)
    simp [splitOnChar, hc, ih hcs]

theorem splitOnChar_append_sep {sep : Char} {a b : List Char}
    (h : ∀ c ∈ a, c ≠ sep) :
    splitOnChar sep (a ++ sep :: b) = a :: splitOnChar sep b := by
  induction a with
  | nil => simp [splitOnChar]
  | cons c cs ih =>
    have hc : c ≠ sep := h c (List.mem_cons_self c cs)
    have hcs : ∀ x ∈ cs, x ≠ sep := fun x hx => h x (List.mem_cons_of_mem c hx)
    simp only [List.cons_append, splitOnChar, if_neg hc]
    rw [List.append_eq, ih hcs]

/-! ## Lemmas about the trace-context codec -/

theorem stringToList_mk (l : List Char) : String.toList ⟨l⟩ = l := rfl

theorem no_dash_encodeHex (w n : Nat) : ∀ c ∈ encodeHex w n, c ≠ '-' := by
  intro c hc
  have hall := all_isHexDigit_encodeHex w n
  rw [List.all_eq_true] at hall
  exact ne_dash_of_isHexDigit (hall c hc)

theorem splitOnChar_traceparentValue (sc : SpanContext) :
    splitOnChar '-' (traceparentValue sc).toList =
      [encodeHex 2 0, encodeHex 32 sc.traceId, encodeHex 16 sc.spanId,
        encodeHex 2 (sc.traceFlags % 256)] := by
  rw [traceparentValue, stringToList_mk,
    splitOnChar_append_sep (no_dash_encodeHex 2 0),
    splitOnChar_append_sep (no_dash_encodeHex 32 sc.traceId),
    splitOnChar_append_sep (no_dash_encodeHex 16 sc.spanId),
    splitOnChar_no_sep (no_dash_encodeHex 2 (sc.traceFlags % 256))]

theorem parseTraceparent_traceparentValue (sc : SpanContext)
    (h1 : sc.traceId < 16 ^ 32) (h2 : sc.spanId < 16 ^ 16)
    (hv : sc.isValid = true) :
    parseTraceparent (traceparentValue sc).toList =
      some ⟨sc.traceId, sc.spanId, sc.traceFlags % 256⟩ := by
  obtain ⟨ht0, hs0⟩ : sc.traceId ≠ 0 ∧ sc.spanId ≠ 0 := by
    simpa [SpanContext.isValid] using hv
  have hflags : sc.traceFlags % 256 < 16 ^ 2 := Nat.mod_lt _ (by omega)
  have hver : (0 : Nat) < 16 ^ 2 := by omega
  rw [parseTraceparent, splitOnChar_traceparentValue]
  simp [parseTraceparentParts, length_encodeHex, all_isHexDigit_encodeHex,
    decodeHex_encodeHex hver, decodeHex_encodeHex h1, decodeHex_encodeHex h2,
    decodeHex_encodeHex hflags, ht0, hs0]

theorem isValidMetadataValue_traceparentValue (sc : SpanContext) :
    isValidMetadataValue (traceparentValue sc) = true := by
  rw [isValidMetadataValue, traceparentValue, stringToList_mk]
  simp [List.all_append, all_isAsciiValueChar_encodeHex]
  decide

theorem create_request_with_span_traceContext (sc : SpanContext)
    (hv : sc.isValid = true) :
    create_request_with_span .traceContext (some sc) =
      [(traceparentKey, traceparentValue sc)] := by
  have hkey : isValidMetadataKey traceparentKey = true := by decide
  simp [create_request_with_span, Propagator.injectContext, hv, metadataMapSet,
    hkey, isValidMetadataValue_traceparentValue, insertCarrier]

theorem headerExtractorGet_single (k v : String)
    (hval : v.toList.all isAsciiValueChar = true) :
    headerExtractorGet [(k, v)] k = some v := by
  show (match (match List.find? (fun p => p.1 == k) [(k, v)] with
      | some p => some p.2
      | none => none : Option String) with
    | some w => if w.toList.all isAsciiValueChar then some w else none
    | none => none) = some v
  rw [List.find?_cons_of_pos _ (by simp)]
  simp only [List.all_eq_true] at hval
  simp
  exact hval

theorem parseTraceparent_isValid {l : List Char} {sc : SpanContext}
    (h : parseTraceparent l = some sc) : sc.isValid = true := by
  unfold parseTraceparent parseTraceparentParts at h
  split at h
  · split_ifs at h with hc
    simp only [Bool.and_eq_true] at hc
    obtain ⟨⟨-, ht0⟩, hs0⟩ := hc
    simp only [Option.some.injEq] at h
    subst h
    simp [SpanContext.isValid, ht0, hs0]
  · exact absurd h (by simp)

/-! ## Lemmas about carriers and span fields -/

theorem lookupCarrier_insertCarrier_self (c : Carrier) (k v : String) :
    lookupCarrier (insertCarrier c k v) k = some v := by
  simp [lookupCarrier, insertCarrier]

theorem lookupField_setField_self (fs : List (String × String)) (k v : String) :
    lookupField (setField fs k v) k = some v := by
  simp [lookupField, setField]

/-! ## Lemmas about `split_once` versus the first-dot description -/

theorem rustSplitOnce_eq_none_iff (sep : Char) (l : List Char) :
    rustSplitOnce sep l = none ↔ sep ∉ l := by
  induction l with
  | nil => simp [rustSplitOnce]
  | cons c cs ih =>
    by_cases hc : c = sep
    · subst hc
      simp [rustSplitOnce]
    · have hcs : ¬ sep = c := fun h => hc h.symm
      simp [rustSplitOnce, hc, Option.map_eq_none', ih, List.mem_cons, hcs]

theorem service_eq_afterFirstDot (l : List Char) :
    ((rustSplitOnce '.' l).map Prod.snd).getD [] = afterFirstDot l := by
  induction l with
  | nil => rfl
  | cons c cs ih =>
    by_cases hc : c = '.'
    · subst hc
      simp [rustSplitOnce, afterFirstDot, List.dropWhile]
    · rw [afterFirstDot]
      by_cases hmem : '.' ∈ c :: cs
      · have hmem' : '.' ∈ cs := by
          rcases List.mem_cons.mp hmem with h | h
          · exact absurd h.symm hc
          · exact h
        obtain ⟨p, hp⟩ : ∃ p, rustSplitOnce '.' cs = some p := by
          rcases ho : rustSplitOnce '.' cs with - | p
          · exact absurd ((rustSplitOnce_eq_none_iff '.' cs).mp ho) (by simp [hmem'])
          · exact ⟨p, rfl⟩
        rw [if_pos hmem]
        have hdrop : (c :: cs).dropWhile (fun x => x ≠ '.') =
            cs.dropWhile (fun x => x ≠ '.') := by
          simp [List.dropWhile, hc]
        rw [hdrop]
        have := ih
        rw [afterFirstDot, if_pos hmem'] at this
        rw [← this]
        simp [rustSplitOnce, hc, hp]
      · have hnone : rustSplitOnce '.' (c :: cs) = none :=
          (rustSplitOnce_eq_none_iff '.' (c :: cs)).mpr hmem
        rw [if_neg hmem, hnone]
        rfl

/-! ## Lemmas about `Builder.build` -/

theorem build_ok_shape (b : Builder) (env : ExternalEnv) (st : GlobalState)
    (r : GlobalState × BuildOutput) (hok : Builder.build b env st = .ok r) :
    st.subscriberInstalled = false ∧
    r.1.subscriberInstalled = true ∧
    r.1.propagator =
      (match b.trace_export_url with
        | some _ => Propagator.traceContext
        | none => st.propagator) ∧
    r.2.sink = Layer.envFilter (effectiveDirective env b) :: Layer.console ::
      Layer.traceId ::
        ((b.trace_export_url.map Layer.openTelemetry).toList ++
          (b.loki_export_url.map Layer.loki).toList) ∧
    r.2.metricsProvider = b.metrics_export_url.map b.init_metrics := by
  rcases b with ⟨name, lvl, tr, mt, lk⟩
  rcases r with ⟨rst, rout⟩
  rcases st with ⟨si, pr⟩
  rcases tr with - | u <;> rcases mt with - | mu <;> rcases lk with - | lu <;>
    rcases env with ⟨te, le, me, rl⟩ <;> rcases te with - | - <;>
    rcases le with - | - <;> rcases me with - | - <;> rcases si with - | - <;>
    simp_all [Builder.build] <;> obtain ⟨h1, h2⟩ := hok <;> subst h1 <;>
    subst h2 <;> simp

/-! ## The claims -/

/-- C1: for every trace context (with in-range identifiers) whose injection
into the outbound request carrier drops no field, extracting from the
carrier produced by `create_request_with_span` yields a context whose
`trace_id` equals the original context's `trace_id`. -/
theorem inject_extract_roundtrip_trace_id (sc : SpanContext)
    (h1 : sc.traceId < 16 ^ 32) (h2 : sc.spanId < 16 ^ 16)
    (hv : sc.isValid = true)
    (hnodrop : lookupCarrier (create_request_with_span .traceContext (some sc))
      traceparentKey ≠ none) :
    ∃ sc', accept_trace .traceContext
        (create_request_with_span .traceContext (some sc)) = some sc' ∧
      sc'.traceId = sc.traceId := by
  refine ⟨⟨sc.traceId, sc.spanId, sc.traceFlags % 256⟩, ?_, rfl⟩
  rw [create_request_with_span_traceContext sc hv]
  show (match headerExtractorGet [(traceparentKey, traceparentValue sc)]
      traceparentKey with
    | some v => parseTraceparent v.toList
    | none => none) =
    some ⟨sc.traceId, sc.spanId, sc.traceFlags % 256⟩
  rw [headerExtractorGet_single _ _ (isValidMetadataValue_traceparentValue sc)]
  exact parseTraceparent_traceparentValue sc h1 h2 hv

/-- Witness for C1 at the concrete context `(trace_id 1, span_id 1, flags 1)`. -/
theorem inject_extract_roundtrip_trace_id_witness :
    ∃ sc', accept_trace .traceContext
        (create_request_with_span .traceContext (some ⟨1, 1, 1⟩)) = some sc' ∧
      sc'.traceId = (⟨1, 1, 1⟩ : SpanContext).traceId :=
  inject_extract_roundtrip_trace_id ⟨1, 1, 1⟩ (by norm_num) (by norm_num)
    (by decide) (by decide)

/-- C2: extraction never fails — for every carrier the extracted parent is
either "no parent" (a fresh root) or a valid context; a carrier without a
readable `traceparent` entry yields no parent; the empty carrier and a
carrier holding garbage and non-ASCII data yield no parent. -/
theorem extract_never_fails :
    (∀ headers : Carrier, accept_trace .traceContext headers = none ∨
      ∃ sc, accept_trace .traceContext headers = some sc ∧ sc.isValid = true) ∧
    (∀ headers : Carrier, headerExtractorGet headers traceparentKey = none →
      accept_trace .traceContext headers = none) ∧
    accept_trace .traceContext [] = none ∧
    accept_trace .traceContext
      [("traceparent", "garbage!!"), ("x", "héllo")] = none := by
  refine ⟨fun headers => ?_, fun headers h => ?_, by decide, by decide⟩
  · rw [show accept_trace .traceContext headers =
      (match headerExtractorGet headers traceparentKey with
        | some v => parseTraceparent v.toList
        | none => none) from rfl]
    cases hget : headerExtractorGet headers traceparentKey with
    | none => exact Or.inl rfl
    | some v =>
      cases hp : parseTraceparent v.toList with
      | none => exact Or.inl hp
      | some sc => exact Or.inr ⟨sc, hp, parseTraceparent_isValid hp⟩
  · show (match headerExtractorGet headers traceparentKey with
      | some v => parseTraceparent v.toList
      | none => none) = none
    rw [h]

/-- Witness for C2's conditional part at a concrete carrier without a
`traceparent` entry. -/
theorem extract_never_fails_witness :
    accept_trace .traceContext [("other", "1")] = none :=
  extract_never_fails.2.1 [("other", "1")] (by decide)

/-- C3, counterexample: on the path `"/a.b.Service/Method"` the code yields
the segment after the *first* dot of the first component, `"b.Service"` —
not `"Service"`, the segment after the last dot, as the claim states. -/
theorem extract_service_method_last_dot_counterexample :
    extract_service_method "/a.b.Service/Method".toList =
      ("b.Service".toList, "Method".toList) ∧
    extract_service_method "/a.b.Service/Method".toList ≠
      ("Service".toList, "Method".toList) := by
  constructor
  · decide
  · decide

/-- C3 as amended: for every RPC request path, `extract_service_method`
returns the pair whose service is the segment after the *first* `'.'` of
the first non-empty path component (empty when that component has no dot)
and whose method is the second non-empty path component; in particular
`"/pkg.Service/Method"` yields `("Service", "Method")` and `"/"` and the
empty path yield `("", "")`. -/
theorem extract_service_method_spec :
    (∀ path : List Char,
      extract_service_method path =
        (afterFirstDot
          ((((splitOnChar '/' path).filter (fun x => !x.isEmpty)).head?).getD []),
         ((((splitOnChar '/' path).filter (fun x => !x.isEmpty)).drop 1).head?).getD [])) ∧
    extract_service_method "/pkg.Service/Method".toList =
      ("Service".toList, "Method".toList) ∧
    extract_service_method "/".toList = ([], []) ∧
    extract_service_method "".toList = ([], []) := by
  refine ⟨fun path => ?_, by decide, by decide, by decide⟩
  show (((rustSplitOnce '.'
      ((((splitOnChar '/' path).filter (fun x => !x.isEmpty)).head?).getD [])).map
        Prod.snd).getD [],
    ((((splitOnChar '/' path).filter (fun x => !x.isEmpty)).drop 1).head?).getD []) = _
  rw [service_eq_afterFirstDot]

/-- C4: `MetadataMap`'s `Injector::set` skips a pair whose key or value is
not representable, leaving the carrier unchanged (no error), while every
representable pair is written and readable back. -/
theorem metadata_set_skips_invalid :
    (∀ (m : Carrier) (k v : String),
      (isValidMetadataKey k && isValidMetadataValue v) = false →
        metadataMapSet m k v = m) ∧
    (∀ (m : Carrier) (k v : String),
      isValidMetadataKey k = true → isValidMetadataValue v = true →
        lookupCarrier (metadataMapSet m k v) k = some v) := by
  constructor
  · intro m k v h
    unfold metadataMapSet
    cases hk : isValidMetadataKey k with
    | false => simp
    | true =>
      cases hval : isValidMetadataValue v with
      | false => simp [hval]
      | true =>
        rw [hk, hval] at h
        simp at h
  · intro m k v hk hv
    simp [metadataMapSet, hk, hv, lookupCarrier_insertCarrier_self]

/-- Witness for C4: a non-ASCII value is skipped with the carrier left
unchanged, and an ASCII pair is written. -/
theorem metadata_set_skips_invalid_witness :
    metadataMapSet [("a", "b")] "traceparent" "héllo" = [("a", "b")] ∧
    lookupCarrier (metadataMapSet [] "traceparent" "ok-value") "traceparent" =
      some "ok-value" :=
  ⟨metadata_set_skips_invalid.1 [("a", "b")] "traceparent" "héllo" (by decide),
   metadata_set_skips_invalid.2 [] "traceparent" "ok-value" (by decide) (by decide)⟩

/-- C5: once the global sink is installed, a subsequent `build` never
succeeds, and — when the configured pipelines themselves construct — it
fails precisely with the global-sink-already-installed error rather than
silently overwriting. -/
theorem build_twice_fails (b : Builder) (env : ExternalEnv) (st : GlobalState)
    (h : st.subscriberInstalled = true) :
    (∀ r, Builder.build b env st ≠ .ok r) ∧
    ((b.trace_export_url.isSome → env.tracerInitOk = true) →
     (b.loki_export_url.isSome → env.lokiInitOk = true) →
     (b.metrics_export_url.isSome → env.metricsInitOk = true) →
      Builder.build b env st = .error .globalSinkAlreadyInstalled) := by
  constructor
  · intro r hok
    have h1 := (build_ok_shape b env st r hok).1
    rw [h] at h1
    exact Bool.noConfusion h1
  · intro ht hl hm
    rcases b with ⟨name, lvl, tr, mt, lk⟩
    rcases tr with - | u <;> rcases mt with - | mu <;> rcases lk with - | lu <;>
      simp_all [Builder.build, h]

/-- Witness for C5 at an already-installed global state. -/
theorem build_twice_fails_witness :
    (∀ r, Builder.build (Builder.new "svc") ⟨true, true, true, none⟩
      ⟨true, .noop⟩ ≠ .ok r) ∧
    Builder.build (Builder.new "svc") ⟨true, true, true, none⟩ ⟨true, .noop⟩ =
      .error .globalSinkAlreadyInstalled :=
  ⟨(build_twice_fails (Builder.new "svc") ⟨true, true, true, none⟩
      ⟨true, .noop⟩ rfl).1,
   (build_twice_fails (Builder.new "svc") ⟨true, true, true, none⟩
      ⟨true, .noop⟩ rfl).2 (fun _ => rfl) (fun _ => rfl) (fun _ => rfl)⟩

/-- C6: the effective level filter installed by `build` is the
environment-level override when the environment variable is present, else
the configured `log_level`; `Builder::new` defaults the level to Info and
`set_log_level` overrides it. -/
theorem effective_log_level :
    (∀ name, (Builder.new name).log_level = LogLevel.info) ∧
    (∀ (b : Builder) lvl, (b.set_log_level lvl).log_level = lvl) ∧
    (∀ (b : Builder) (env : ExternalEnv) (st st' : GlobalState)
      (out : BuildOutput), Builder.build b env st = .ok (st', out) →
        out.sink.head? = some (.envFilter (effectiveDirective env b))) ∧
    (∀ (env : ExternalEnv) (b : Builder) e, env.rustLog = some e →
      effectiveDirective env b = e) ∧
    (∀ (env : ExternalEnv) (b : Builder), env.rustLog = none →
      effectiveDirective env b = b.log_level.toDirective) := by
  refine ⟨fun name => rfl, fun b lvl => rfl, fun b env st st' out hok => ?_,
    fun env b e he => ?_, fun env b he => ?_⟩
  · rw [(build_ok_shape b env st (st', out) hok).2.2.2.1]
    rfl
  · simp [effectiveDirective, he]
  · simp [effectiveDirective, he]

/-- Witness for C6: a concrete successful build carries the configured
Info directive at the head of the sink; a present environment variable
wins; an absent one falls back to the configured level. -/
theorem effective_log_level_witness :
    (Builder.new "svc").log_level = LogLevel.info ∧
    ({ sink := [Layer.envFilter "Info", Layer.console, Layer.traceId],
        metricsProvider := none } : BuildOutput).sink.head? =
      some (.envFilter (effectiveDirective ⟨true, true, true, none⟩
        (Builder.new "svc"))) ∧
    effectiveDirective ⟨true, true, true, some "warn"⟩ (Builder.new "svc") =
      "warn" ∧
    effectiveDirective ⟨true, true, true, none⟩ (Builder.new "svc") =
      (Builder.new "svc").log_level.toDirective :=
  ⟨effective_log_level.1 "svc",
   effective_log_level.2.2.1 (Builder.new "svc") ⟨true, true, true, none⟩
    ⟨false, .noop⟩ ⟨true, .noop⟩
    { sink := [Layer.envFilter "Info", Layer.console, Layer.traceId],
      metricsProvider := none } rfl,
   effective_log_level.2.2.2.1 ⟨true, true, true, some "warn"⟩
    (Builder.new "svc") "warn" rfl,
   effective_log_level.2.2.2.2 ⟨true, true, true, none⟩ (Builder.new "svc") rfl⟩

/-- C7: when a metrics target is set, a successful `build` constructs the
periodic metrics exporter with a 3 s push interval, a 10 s export timeout
and the default aggregation and temporality selectors. -/
theorem metrics_pipeline_config (b : Builder) (env : ExternalEnv)
    (st st' : GlobalState) (out : BuildOutput) (u : String)
    (hm : b.metrics_export_url = some u)
    (hok : Builder.build b env st = .ok (st', out)) :
    out.metricsProvider = some (b.init_metrics u) ∧
    (b.init_metrics u).periodSecs = 3 ∧
    (b.init_metrics u).timeoutSecs = 10 ∧
    (b.init_metrics u).aggregation = .defaultSelector ∧
    (b.init_metrics u).temporality = .defaultSelector := by
  have h5 := (build_ok_shape b env st (st', out) hok).2.2.2.2
  rw [hm] at h5
  exact ⟨h5, rfl, rfl, rfl, rfl⟩

/-- Witness for C7 at a concrete metrics-enabled build. -/
theorem metrics_pipeline_config_witness :
    ({ sink := [Layer.envFilter "Info", Layer.console, Layer.traceId],
        metricsProvider := some (((Builder.new "svc").enable_metrics
          "http://metrics").init_metrics "http://metrics") } :
      BuildOutput).metricsProvider =
      some (((Builder.new "svc").enable_metrics "http://metrics").init_metrics
        "http://metrics") ∧
    (((Builder.new "svc").enable_metrics "http://metrics").init_metrics
      "http://metrics").periodSecs = 3 ∧
    (((Builder.new "svc").enable_metrics "http://metrics").init_metrics
      "http://metrics").timeoutSecs = 10 ∧
    (((Builder.new "svc").enable_metrics "http://metrics").init_metrics
      "http://metrics").aggregation = .defaultSelector ∧
    (((Builder.new "svc").enable_metrics "http://metrics").init_metrics
      "http://metrics").temporality = .defaultSelector :=
  metrics_pipeline_config ((Builder.new "svc").enable_metrics "http://metrics")
    ⟨true, true, true, none⟩ ⟨false, .noop⟩ ⟨true, .noop⟩
    { sink := [Layer.envFilter "Info", Layer.console, Layer.traceId],
      metricsProvider := some (((Builder.new "svc").enable_metrics
        "http://metrics").init_metrics "http://metrics") }
    "http://metrics" rfl rfl

/-- C8: with none of the three optional targets set and no sink installed
yet, `build` succeeds and installs the minimal sink: level filter, console
log layer, and trace-id recording layer only. -/
theorem build_minimal_sink (b : Builder) (env : ExternalEnv) (st : GlobalState)
    (h1 : b.trace_export_url = none) (h2 : b.metrics_export_url = none)
    (h3 : b.loki_export_url = none) (h4 : st.subscriberInstalled = false) :
    Builder.build b env st =
      .ok ({ st with subscriberInstalled := true },
        { sink := [Layer.envFilter (effectiveDirective env b), Layer.console,
            Layer.traceId],
          metricsProvider := none }) := by
  rcases b with ⟨name, lvl, tr, mt, lk⟩
  rcases st with ⟨si, pr⟩
  simp only at h1 h2 h3 h4
  subst h1 h2 h3 h4
  simp [Builder.build]

/-- Witness for C8 at a concrete target-free builder. -/
theorem build_minimal_sink_witness :
    Builder.build (Builder.new "svc") ⟨true, true, true, none⟩ ⟨false, .noop⟩ =
      .ok (⟨true, .noop⟩,
        { sink := [Layer.envFilter (effectiveDirective ⟨true, true, true, none⟩
            (Builder.new "svc")), Layer.console, Layer.traceId],
          metricsProvider := none }) :=
  build_minimal_sink (Builder.new "svc") ⟨true, true, true, none⟩
    ⟨false, .noop⟩ rfl rfl rfl rfl

/-- C9: the span context recorders write the resolved trace id into the
field named `trace_id` of the given span, overwriting any previous value
of that field, and do nothing when no span is active (RPC variant) or no
root span is present in the request extensions (HTTP variant). -/
theorem record_trace_id_spec :
    (∀ sp sp' : SpanData, record_trace_id (some sp) = some sp' →
      lookupField sp'.fields "trace_id" = some (spanTraceIdString sp)) ∧
    record_trace_id none = none ∧
    (∀ sp sp' : SpanData, tracingRecordCall (some sp) = some sp' →
      lookupField sp'.fields "trace_id" = some (spanTraceIdString sp)) ∧
    tracingRecordCall none = none := by
  refine ⟨fun sp sp' h => ?_, rfl, fun sp sp' h => ?_, rfl⟩
  · simp only [record_trace_id, Option.some.injEq] at h
    subst h
    exact lookupField_setField_self _ _ _
  · simp only [tracingRecordCall, Option.some.injEq] at h
    subst h
    exact lookupField_setField_self _ _ _

/-- Witness for C9 at a span that already carries an old `trace_id` value:
the recorded value overwrites it. -/
theorem record_trace_id_spec_witness :
    lookupField (SpanData.mk (some (SpanContext.mk 5 6 7))
        [("trace_id", spanTraceIdString (SpanData.mk (some (SpanContext.mk 5 6 7))
          [("trace_id", "old")]))]).fields "trace_id" =
      some (spanTraceIdString (SpanData.mk (some (SpanContext.mk 5 6 7))
        [("trace_id", "old")])) :=
  record_trace_id_spec.1
    (SpanData.mk (some (SpanContext.mk 5 6 7)) [("trace_id", "old")])
    (SpanData.mk (some (SpanContext.mk 5 6 7))
      [("trace_id", spanTraceIdString (SpanData.mk (some (SpanContext.mk 5 6 7))
        [("trace_id", "old")]))])
    rfl

/-- C10: when `build` runs without a trace export target, the global
propagator stays the no-op default (even with metrics or log targets
configured), so the egress injection writes nothing and the ingress
extraction finds no parent. -/
theorem no_trace_target_noop_propagator (b : Builder) (env : ExternalEnv)
    (st st' : GlobalState) (out : BuildOutput)
    (h : b.trace_export_url = none) (hp : st.propagator = .noop)
    (hok : Builder.build b env st = .ok (st', out)) :
    st'.propagator = .noop ∧
    (∀ cx, create_request_with_span st'.propagator cx = []) ∧
    (∀ headers, accept_trace st'.propagator headers = none) := by
  have h3 := (build_ok_shape b env st (st', out) hok).2.2.1
  rw [h] at h3
  have hpp : st'.propagator = .noop := h3.trans hp
  exact ⟨hpp, fun cx => by rw [hpp]; rfl, fun headers => by rw [hpp]; rfl⟩

/-- Witness for C10 at a builder with metrics and log targets but no trace
target. -/
theorem no_trace_target_noop_propagator_witness :
    (⟨true, .noop⟩ : GlobalState).propagator = .noop ∧
    (∀ cx, create_request_with_span
      (⟨true, .noop⟩ : GlobalState).propagator cx = []) ∧
    (∀ headers, accept_trace
      (⟨true, .noop⟩ : GlobalState).propagator headers = none) :=
  no_trace_target_noop_propagator
    (((Builder.new "svc").enable_metrics "http://m").enable_log "http://l")
    ⟨true, true, true, none⟩ ⟨false, .noop⟩ ⟨true, .noop⟩
    { sink := [Layer.envFilter "Info", Layer.console, Layer.traceId,
        Layer.loki "http://l"],
      metricsProvider := some ((((Builder.new "svc").enable_metrics
        "http://m").enable_log "http://l").init_metrics "http://m") }
    rfl rfl rfl

end KgsTracing
